import Mathlib

/-!
# Verification of `logger/logger.go`

A shallow embedding of the logging facade: level parsing, the two level-enabler
closures, the tee of three cores, the default file names and the duration encoder.

Library behaviour the file relies on (zap, lumberjack, `os`, `path/filepath`) is
modelled by the small definitions that carry the library's names; everything else
is a transcription of `logger.go`.
-/

namespace Logger

/-! ## Strings -/

/-- A Go string is an immutable sequence of bytes; every byte is kept as a natural
number below 256. Equality, length and concatenation are those of the byte sequence. -/
abbrev GoString := List Nat

/-- The bytes of an ASCII string literal of the source (one byte per character). -/
def lit (s : String) : GoString := s.toList.map Char.toNat

/-! ## Levels (zapcore) -/

/-- The type `zapcore.Level` is a signed 8-bit integer. No arithmetic is performed on
levels, only comparisons, so the model keeps them as integers. -/
abbrev Level := Int

/-- The constant `zapcore.DebugLevel`. -/
def DebugLevel : Level := -1
/-- The constant `zapcore.InfoLevel`. -/
def InfoLevel : Level := 0
/-- The constant `zapcore.WarnLevel`. -/
def WarnLevel : Level := 1
/-- The constant `zapcore.ErrorLevel`. -/
def ErrorLevel : Level := 2
/-- The constant `zapcore.DPanicLevel`. -/
def DPanicLevel : Level := 3
/-- The constant `zapcore.PanicLevel`. -/
def PanicLevel : Level := 4
/-- The constant `zapcore.FatalLevel`. -/
def FatalLevel : Level := 5

/-- The level enabler of a core. `func f` is `zap.LevelEnablerFunc(f)`; `atomic` is
the `zap.AtomicLevel` created in `InitLog`, a reference to the one mutable level cell. -/
inductive LevelEnabler where
  | func (f : Level → Bool)
  | atomic

/-- The method `Enabled`. For a `LevelEnablerFunc` it calls the function; for the
`AtomicLevel` it loads the cell (`cell`) and answers `lvl >= cell`. -/
def LevelEnabler.Enabled (cell : Level) : LevelEnabler → Level → Bool
  | .func f, lvl => f lvl
  | .atomic, lvl => decide (lvl ≥ cell)

/-! ## Writers and cores -/

/-- The destination of a core: a `lumberjack.Logger` with its rotation settings, or
the standard output stream. -/
inductive WriteSyncer where
  | lumberjack (Filename : GoString) (MaxSize MaxBackups MaxAge : Nat) (Compress : Bool)
  | stdout
  deriving DecidableEq, Repr

/-- The function `getLogWriter` (logger.go, lines 93-102). -/
def getLogWriter (filename : GoString) : WriteSyncer :=
  .lumberjack filename 10 5 30 false

/-- The result of `zapcore.NewCore(enc, ws, enab)`; the encoder is the same console
encoder for all three cores and is left out. -/
structure Core where
  out : WriteSyncer
  enab : LevelEnabler

/-- What `InitLog` leaves behind: the three cores handed to `zapcore.NewTee` in their
order, the contents of the atomic level cell, the stack trace level and whether the
HTTP handler was started. -/
structure LogState where
  infoCore : Core
  warnCore : Core
  consoleCore : Core
  atomicLevel : Level
  stacktrace : Level
  serveHTTP : Bool

/-! ## InitLog -/

/-- The `switch level` of `InitLog` (logger.go, lines 42-58): the value of `logLevel`
after the switch. Go compares strings byte by byte. -/
def parseLevel (level : GoString) : Level :=
  if level = lit "debug" then DebugLevel
  else if level = lit "info" then InfoLevel
  else if level = lit "warn" then WarnLevel
  else if level = lit "error" then ErrorLevel
  else if level = lit "panic" then PanicLevel
  else if level = lit "fatal" then FatalLevel
  else InfoLevel

/-- The closure `infoLevel` of `InitLog` (lines 60-62), with the captured variable
`logLevel` as its first argument. -/
def infoLevel (logLevel : Level) (lvl : Level) : Bool :=
  decide (lvl < WarnLevel) && decide (lvl ≥ logLevel)

/-- The closure `warnLevel` of `InitLog` (lines 64-66), with the captured variable
`logLevel` as its first argument. -/
def warnLevel (logLevel : Level) (lvl : Level) : Bool :=
  decide (lvl ≥ WarnLevel) && decide (lvl ≥ logLevel)

/-- The body of `InitLog` after the switch (lines 59-91), for a given value of
`logLevel`. -/
def buildLogger (logPath errPath : GoString) (logLevel : Level) (enable : Bool) : LogState :=
  { infoCore := ⟨getLogWriter logPath, .func (infoLevel logLevel)⟩
    warnCore := ⟨getLogWriter errPath, .func (warnLevel logLevel)⟩
    consoleCore := ⟨.stdout, .atomic⟩
    atomicLevel := logLevel
    stacktrace := WarnLevel
    serveHTTP := enable }

/-- The function `InitLog` (logger.go, lines 25-91). -/
def InitLog (logPath errPath : GoString) (level : GoString) (enable : Bool) : LogState :=
  buildLogger logPath errPath (parseLevel level) enable

/-- The method `AtomicLevel.SetLevel`, which the handler registered on `/app/level`
calls: it stores a new value in the cell and touches nothing else. -/
def SetLevel (st : LogState) (l : Level) : LogState :=
  { st with atomicLevel := l }

/-- Whether a core of the logger accepts a record of level `lvl` (`ioCore.Check`). -/
def Core.Enabled (st : LogState) (c : Core) (lvl : Level) : Bool :=
  c.enab.Enabled st.atomicLevel lvl

/-- Whether the core writing to `logPath` accepts the level. -/
def lowAccepts (st : LogState) (lvl : Level) : Bool := st.infoCore.Enabled st lvl

/-- Whether the core writing to `errPath` accepts the level. -/
def highAccepts (st : LogState) (lvl : Level) : Bool := st.warnCore.Enabled st lvl

/-- Whether the core writing to the standard output accepts the level. -/
def consoleAccepts (st : LogState) (lvl : Level) : Bool := st.consoleCore.Enabled st lvl

/-- The tee of the three cores: the writers, in the order of `NewTee`, of the cores
that accept a record of level `lvl`. -/
def emit (st : LogState) (lvl : Level) : List WriteSyncer :=
  ([st.infoCore, st.warnCore, st.consoleCore].filter (fun c => c.Enabled st lvl)).map Core.out

/-! ## The logging functions (lines 130-148)

Each one emits a single record at its own level through the shared logger. The
text of the record does not influence routing and is not modelled. -/

/-- The function `Debug`: `logger.Debugf`. -/
def Debug (st : LogState) : List WriteSyncer := emit st DebugLevel
/-- The function `Info`: `logger.Infof`. -/
def Info (st : LogState) : List WriteSyncer := emit st InfoLevel
/-- The function `Warn`: `logger.Warnf`. -/
def Warn (st : LogState) : List WriteSyncer := emit st WarnLevel
/-- The function `Error`: `logger.Errorf`. -/
def Error (st : LogState) : List WriteSyncer := emit st ErrorLevel
/-- The function `Panic`: `logger.Panicf` (the record is written before the panic). -/
def Panic (st : LogState) : List WriteSyncer := emit st PanicLevel

/-! ## Default file names (lines 104-128) -/

/-- The type `logFileType` is an `int`. -/
abbrev logFileType := Int

/-- The constant `err`: `iota + 1` in the first line of the block. -/
def err : logFileType := 0 + 1
/-- The constant `info`: `iota + 1` in the second line of the block. -/
def info : logFileType := 1 + 1

/-- What the process sees of its surroundings: the result of `os.Getwd()` (the empty
string when it fails, since the error is dropped), `os.Args[0]`, and the environment
(no entry for a variable that is not set). -/
structure Process where
  wd : GoString
  arg0 : GoString
  environ : GoString → Option GoString

/-- The function `os.Getenv`: the value of the variable, the empty string when the
variable is not present. -/
def Getenv (p : Process) (key : GoString) : GoString :=
  (p.environ key).getD []

/-- The function `os.IsPathSeparator` on Unix: the byte `/`. -/
def IsPathSeparator (c : Nat) : Bool := c == 47

/-- The loop of `filepath.Split` on Unix (no volume name): starting from
`i = len(path) - 1`, `i` is decremented while `i >= 0` and `path[i]` is not a
separator. The argument and the result are `i + 1`. -/
def splitIndex (path : GoString) : Nat → Nat
  | 0 => 0
  | k + 1 => if IsPathSeparator (path.getD k 0) then k + 1 else splitIndex path k

/-- The function `filepath.Split` on Unix: `path[:i+1], path[i+1:]`. -/
def Split (path : GoString) : GoString × GoString :=
  let j := splitIndex path path.length
  (path.take j, path.drop j)

/-- The function `getCurrentDirectory` (lines 119-122). -/
def getCurrentDirectory (p : Process) : GoString := p.wd

/-- The function `getAppName` (lines 124-128). -/
def getAppName (p : Process) : GoString := (Split p.arg0).2

/-- The function `setLogFile` (lines 112-117). -/
def setLogFile (p : Process) (T : logFileType) : GoString :=
  if T = err then
    getCurrentDirectory p ++ lit "/" ++ getAppName p ++ lit "_err.log"
  else
    getCurrentDirectory p ++ lit "/" ++ getAppName p ++ lit "_.log"

/-- The function `init` (lines 15-23). -/
def init (p : Process) : LogState :=
  let lvl := Getenv p (lit "LOG_LVL")
  let lvl := if lvl.length ≤ 0 then lit "info" else lvl
  InitLog (setLogFile p info) (setLogFile p err) lvl false

/-! ## The duration encoder (lines 36-38) -/

/-- The value of a 64-bit two's complement integer with the given mathematical value
reduced modulo `2^64`. -/
def wrapInt64 (x : Int) : Int := (x + 2 ^ 63) % 2 ^ 64 - 2 ^ 63

/-- Go's `/` on `int64`: the quotient truncated toward zero, wrapped to 64 bits. -/
def divInt64 (a b : Int) : Int := wrapInt64 (Int.tdiv a b)

/-- An element appended to a `zapcore.PrimitiveArrayEncoder`. -/
inductive Primitive where
  | int64 (v : Int)
  | string (s : GoString)
  deriving DecidableEq, Repr

/-- The method `AppendInt64` of the array encoder. -/
def AppendInt64 (enc : List Primitive) (v : Int) : List Primitive := enc ++ [.int64 v]

/-- The closure `EncodeDuration` of the encoder configuration; `d` is the `int64`
value of the `time.Duration`, a count of nanoseconds. -/
def EncodeDuration (d : Int) (enc : List Primitive) : List Primitive :=
  AppendInt64 enc (divInt64 d 1000000)

/-- The logger built by `InitLog` with threshold `t`, at a later moment when the
atomic level cell holds `a` (after any number of `SetLevel` calls, or none when
`a = t`). -/
def running (logPath errPath : GoString) (t : Level) (enable : Bool) (a : Level) : LogState :=
  SetLevel (buildLogger logPath errPath t enable) a

end Logger

namespace Logger

/-! ## Routing lemmas -/

lemma lowAccepts_running (lp ep : GoString) (t : Level) (en : Bool) (a S : Level) :
    lowAccepts (running lp ep t en a) S = infoLevel t S := rfl

lemma highAccepts_running (lp ep : GoString) (t : Level) (en : Bool) (a S : Level) :
    highAccepts (running lp ep t en a) S = warnLevel t S := rfl

lemma consoleAccepts_running (lp ep : GoString) (t : Level) (en : Bool) (a S : Level) :
    consoleAccepts (running lp ep t en a) S = decide (S ≥ a) := rfl

lemma running_self (lp ep : GoString) (t : Level) (en : Bool) :
    running lp ep t en t = buildLogger lp ep t en := rfl

lemma infoLevel_iff (t S : Level) : infoLevel t S = true ↔ t ≤ S ∧ S < WarnLevel := by
  unfold infoLevel
  simp only [Bool.and_eq_true, decide_eq_true_eq, ge_iff_le]
  exact And.comm

lemma warnLevel_iff (t S : Level) : warnLevel t S = true ↔ WarnLevel ≤ S ∧ t ≤ S := by
  unfold warnLevel
  simp only [Bool.and_eq_true, decide_eq_true_eq, ge_iff_le]

lemma infoLevel_false_iff (t S : Level) : infoLevel t S = false ↔ S < t ∨ WarnLevel ≤ S := by
  rw [← Bool.not_eq_true, infoLevel_iff]
  constructor
  · intro h
    by_cases h1 : t ≤ S
    · right
      exact not_lt.mp (fun h2 => h ⟨h1, h2⟩)
    · left
      exact not_le.mp h1
  · rintro (h | h) ⟨h1, h2⟩
    · exact absurd h1 (not_le.mpr h)
    · exact absurd h2 (not_lt.mpr h)

lemma warnLevel_false_iff (t S : Level) : warnLevel t S = false ↔ S < WarnLevel ∨ S < t := by
  rw [← Bool.not_eq_true, warnLevel_iff]
  constructor
  · intro h
    by_cases h1 : WarnLevel ≤ S
    · right
      exact not_le.mp (fun h2 => h ⟨h1, h2⟩)
    · left
      exact not_le.mp h1
  · rintro (h | h) ⟨h1, h2⟩
    · exact absurd h1 (not_le.mpr h)
    · exact absurd h2 (not_le.mpr h)

lemma emit_running (lp ep : GoString) (t : Level) (en : Bool) (a S : Level) :
    emit (running lp ep t en a) S
      = (if infoLevel t S = true then [getLogWriter lp] else [])
        ++ (if warnLevel t S = true then [getLogWriter ep] else [])
        ++ (if a ≤ S then [WriteSyncer.stdout] else []) := by
  have h1 : emit (running lp ep t en a) S
      = (([⟨getLogWriter lp, .func (infoLevel t)⟩, ⟨getLogWriter ep, .func (warnLevel t)⟩,
            ⟨.stdout, .atomic⟩] : List Core).filter
            (fun c => c.enab.Enabled a S)).map Core.out := rfl
  rw [h1]
  simp only [List.filter_cons, List.filter_nil, LevelEnabler.Enabled, decide_eq_true_eq,
    ge_iff_le]
  by_cases hi : infoLevel t S = true <;> by_cases hw : warnLevel t S = true <;>
    by_cases hc : a ≤ S <;> simp [hi, hw, hc]

/-! ## Level parsing -/

/-- C1: the level text is parsed to Debug, Info, Warn, Error, Panic or Fatal when it is
exactly "debug", "info", "warn", "error", "panic" or "fatal", and to Info for every
other string, among them the empty string and "WARN"; `parseLevel` is a total function,
so parsing never fails, and its value is always one of the six levels. -/
theorem C1_parseLevel :
    (parseLevel (lit "debug") = DebugLevel ∧ parseLevel (lit "info") = InfoLevel ∧
      parseLevel (lit "warn") = WarnLevel ∧ parseLevel (lit "error") = ErrorLevel ∧
      parseLevel (lit "panic") = PanicLevel ∧ parseLevel (lit "fatal") = FatalLevel) ∧
    (∀ level : GoString, level ≠ lit "debug" → level ≠ lit "info" → level ≠ lit "warn" →
      level ≠ lit "error" → level ≠ lit "panic" → level ≠ lit "fatal" →
      parseLevel level = InfoLevel) ∧
    (parseLevel [] = InfoLevel ∧ parseLevel (lit "WARN") = InfoLevel) ∧
    (∀ level : GoString, parseLevel level ∈
      [DebugLevel, InfoLevel, WarnLevel, ErrorLevel, PanicLevel, FatalLevel]) ∧
    (∀ lp ep level en, (InitLog lp ep level en).atomicLevel = parseLevel level ∧
      InitLog lp ep level en = buildLogger lp ep (parseLevel level) en) := by
  refine ⟨by decide, ?_, by decide, ?_, fun _ _ _ _ => ⟨rfl, rfl⟩⟩
  · intro level h1 h2 h3 h4 h5 h6
    simp only [parseLevel, if_neg h1, if_neg h2, if_neg h3, if_neg h4, if_neg h5, if_neg h6]
  · intro level
    unfold parseLevel
    split_ifs <;> simp

/-! ## The two file predicates -/

/-- C2: for every threshold `t` and severity `S`, the predicate of the core that writes
to `logPath` accepts `S` exactly when `t ≤ S` and `S < Warn`, whatever the atomic cell
holds; it accepts nothing when `t ≥ Warn`; the same holds for the logger that `InitLog`
builds from a level text, with `t` the parsed level. -/
theorem C2_low_predicate (logPath errPath : GoString) (enable : Bool) (t a S : Level) :
    (buildLogger logPath errPath t enable).infoCore.out = getLogWriter logPath ∧
    (lowAccepts (buildLogger logPath errPath t enable) S = true ↔ t ≤ S ∧ S < WarnLevel) ∧
    (lowAccepts (running logPath errPath t enable a) S = true ↔ t ≤ S ∧ S < WarnLevel) ∧
    (WarnLevel ≤ t → ∀ S0, lowAccepts (running logPath errPath t enable a) S0 = false) ∧
    (∀ level, lowAccepts (InitLog logPath errPath level enable) S = true
      ↔ parseLevel level ≤ S ∧ S < WarnLevel) := by
  refine ⟨rfl, ?_, ?_, ?_, ?_⟩
  · rw [← running_self, lowAccepts_running]
    exact infoLevel_iff t S
  · rw [lowAccepts_running]
    exact infoLevel_iff t S
  · intro ht S0
    rw [lowAccepts_running, infoLevel_false_iff]
    by_cases h : S0 < t
    · exact Or.inl h
    · exact Or.inr (le_trans ht (not_lt.mp h))
  · intro level
    unfold InitLog
    rw [← running_self, lowAccepts_running]
    exact infoLevel_iff _ S

/-- C3: for every threshold `t` and severity `S`, the predicate of the core that writes
to `errPath` accepts `S` exactly when `S ≥ Warn` and `S ≥ t`, whatever the atomic cell
holds; hence for `t ≤ Warn` it accepts exactly the severities `S ≥ Warn`; the same holds
for the logger that `InitLog` builds from a level text. -/
theorem C3_high_predicate (logPath errPath : GoString) (enable : Bool) (t a S : Level) :
    (buildLogger logPath errPath t enable).warnCore.out = getLogWriter errPath ∧
    (highAccepts (buildLogger logPath errPath t enable) S = true ↔ WarnLevel ≤ S ∧ t ≤ S) ∧
    (highAccepts (running logPath errPath t enable a) S = true ↔ WarnLevel ≤ S ∧ t ≤ S) ∧
    (t ≤ WarnLevel →
      ∀ S0, highAccepts (running logPath errPath t enable a) S0 = true ↔ WarnLevel ≤ S0) ∧
    (∀ level, highAccepts (InitLog logPath errPath level enable) S = true
      ↔ WarnLevel ≤ S ∧ parseLevel level ≤ S) := by
  refine ⟨rfl, ?_, ?_, ?_, ?_⟩
  · rw [← running_self, highAccepts_running]
    exact warnLevel_iff t S
  · rw [highAccepts_running]
    exact warnLevel_iff t S
  · intro ht S0
    rw [highAccepts_running, warnLevel_iff]
    exact ⟨fun h => h.1, fun h => ⟨h, le_trans ht h⟩⟩
  · intro level
    unfold InitLog
    rw [← running_self, highAccepts_running]
    exact warnLevel_iff _ S

/-- C4: for every threshold `t` and every severity `S < t`, neither file predicate
accepts `S`, whatever the atomic cell holds, so the only writer a record of level `S`
can reach is the standard output. -/
theorem C4_below_threshold (logPath errPath : GoString) (enable : Bool) (t a S : Level)
    (h : S < t) :
    lowAccepts (running logPath errPath t enable a) S = false ∧
    highAccepts (running logPath errPath t enable a) S = false ∧
    lowAccepts (buildLogger logPath errPath t enable) S = false ∧
    highAccepts (buildLogger logPath errPath t enable) S = false ∧
    emit (running logPath errPath t enable a) S = (if a ≤ S then [.stdout] else []) ∧
    emit (buildLogger logPath errPath t enable) S = [] := by
  have hl : infoLevel t S = false := (infoLevel_false_iff t S).mpr (Or.inl h)
  have hw : warnLevel t S = false := (warnLevel_false_iff t S).mpr (Or.inr h)
  refine ⟨?_, ?_, ?_, ?_, ?_, ?_⟩
  · rw [lowAccepts_running]; exact hl
  · rw [highAccepts_running]; exact hw
  · rw [← running_self, lowAccepts_running]; exact hl
  · rw [← running_self, highAccepts_running]; exact hw
  · rw [emit_running, hl, hw]
    simp
  · rw [← running_self, emit_running, hl, hw, if_neg (not_le.mpr h)]
    simp

/-- Witness of C4: threshold Warn, cell lowered to Debug, a record at Info. -/
theorem C4_below_threshold_witness :
    InfoLevel < WarnLevel ∧
    lowAccepts (running (lit "a.log") (lit "a_err.log") WarnLevel false DebugLevel) InfoLevel
      = false ∧
    highAccepts (running (lit "a.log") (lit "a_err.log") WarnLevel false DebugLevel) InfoLevel
      = false ∧
    emit (running (lit "a.log") (lit "a_err.log") WarnLevel false DebugLevel) InfoLevel
      = [.stdout] :=
  have h := C4_below_threshold (lit "a.log") (lit "a_err.log") false WarnLevel DebugLevel
    InfoLevel (by decide)
  ⟨by decide, h.1, h.2.1, h.2.2.2.2.1⟩

/-- C5: for every threshold `t` (and every content `a` of the atomic cell) the two file
predicates are mutually exclusive and split at Warn: no severity is accepted by both; a
severity `S` with `t ≤ S < Warn` is accepted by the low file and not by the high file,
so `Debug` and `Info` write to the `logPath` writer (and to the console when `a` allows)
once the threshold admits them; the levels of `Warn`, `Error` and `Panic` are never
accepted by the low file, and those functions write to the `errPath` writer and the
console only. -/
theorem C5_split_at_warn (logPath errPath : GoString) (enable : Bool) (t a : Level) :
    (∀ S, ¬ (lowAccepts (running logPath errPath t enable a) S = true ∧
        highAccepts (running logPath errPath t enable a) S = true)) ∧
    (∀ S, t ≤ S → S < WarnLevel →
      lowAccepts (running logPath errPath t enable a) S = true ∧
      highAccepts (running logPath errPath t enable a) S = false) ∧
    (t ≤ DebugLevel → Debug (running logPath errPath t enable a)
      = getLogWriter logPath :: (if a ≤ DebugLevel then [.stdout] else [])) ∧
    (t ≤ InfoLevel → Info (running logPath errPath t enable a)
      = getLogWriter logPath :: (if a ≤ InfoLevel then [.stdout] else [])) ∧
    (lowAccepts (running logPath errPath t enable a) WarnLevel = false ∧
      lowAccepts (running logPath errPath t enable a) ErrorLevel = false ∧
      lowAccepts (running logPath errPath t enable a) PanicLevel = false) ∧
    (Warn (running logPath errPath t enable a)
        = (if t ≤ WarnLevel then [getLogWriter errPath] else [])
          ++ (if a ≤ WarnLevel then [.stdout] else []) ∧
      Error (running logPath errPath t enable a)
        = (if t ≤ ErrorLevel then [getLogWriter errPath] else [])
          ++ (if a ≤ ErrorLevel then [.stdout] else []) ∧
      Panic (running logPath errPath t enable a)
        = (if t ≤ PanicLevel then [getLogWriter errPath] else [])
          ++ (if a ≤ PanicLevel then [.stdout] else [])) := by
  have low_of : ∀ S, t ≤ S → S < WarnLevel → infoLevel t S = true :=
    fun S h1 h2 => (infoLevel_iff t S).mpr ⟨h1, h2⟩
  have high_of : ∀ S, S < WarnLevel → warnLevel t S = false :=
    fun S h => (warnLevel_false_iff t S).mpr (Or.inl h)
  have low_not : ∀ S, WarnLevel ≤ S → infoLevel t S = false :=
    fun S h => (infoLevel_false_iff t S).mpr (Or.inr h)
  have high_at : ∀ S, WarnLevel ≤ S → (warnLevel t S = true ↔ t ≤ S) :=
    fun S h => (warnLevel_iff t S).trans ⟨fun x => x.2, fun x => ⟨h, x⟩⟩
  have upper : ∀ S, WarnLevel ≤ S → emit (running logPath errPath t enable a) S
      = (if t ≤ S then [getLogWriter errPath] else []) ++ (if a ≤ S then [.stdout] else []) := by
    intro S h
    rw [emit_running, low_not S h]
    by_cases ht : t ≤ S
    · rw [(high_at S h).mpr ht]; simp [ht]
    · have : warnLevel t S = false := by
        rw [← Bool.not_eq_true, high_at S h]; exact ht
      rw [this]; simp [ht]
  have lower : ∀ S, t ≤ S → S < WarnLevel → emit (running logPath errPath t enable a) S
      = getLogWriter logPath :: (if a ≤ S then [.stdout] else []) := by
    intro S h1 h2
    rw [emit_running, low_of S h1 h2, high_of S h2]
    simp
  refine ⟨?_, ?_, ?_, ?_, ⟨?_, ?_, ?_⟩, ⟨?_, ?_, ?_⟩⟩
  · rintro S ⟨h1, h2⟩
    rw [lowAccepts_running, infoLevel_iff] at h1
    rw [highAccepts_running, warnLevel_iff] at h2
    exact absurd h2.1 (not_le.mpr h1.2)
  · intro S h1 h2
    rw [lowAccepts_running, highAccepts_running]
    exact ⟨low_of S h1 h2, high_of S h2⟩
  · intro h
    exact lower DebugLevel h (by decide)
  · intro h
    exact lower InfoLevel h (by decide)
  · rw [lowAccepts_running]; exact low_not _ (by decide)
  · rw [lowAccepts_running]; exact low_not _ (by decide)
  · rw [lowAccepts_running]; exact low_not _ (by decide)
  · exact upper WarnLevel (by decide)
  · exact upper ErrorLevel (by decide)
  · exact upper PanicLevel (by decide)

/-! ## The console and the atomic level -/

/-- C6: the console core accepts `S` exactly when `S` is at least the current content
of the atomic cell; storing any value `a` in the cell (from any earlier content `b`)
changes the cell only and leaves both file cores, and so both file predicates, as
they were, for every static threshold `t`; and a severity `S` with `a ≤ S < t`, which
the console rejects right after initialisation, is accepted by it after the change. -/
theorem C6_console_tracks_cell (logPath errPath : GoString) (enable : Bool) (t b a S : Level) :
    (consoleAccepts (running logPath errPath t enable b) S = true ↔ b ≤ S) ∧
    (SetLevel (running logPath errPath t enable b) a = running logPath errPath t enable a ∧
      (SetLevel (running logPath errPath t enable b) a).atomicLevel = a) ∧
    (lowAccepts (SetLevel (running logPath errPath t enable b) a) S
        = lowAccepts (running logPath errPath t enable b) S ∧
      highAccepts (SetLevel (running logPath errPath t enable b) a) S
        = highAccepts (running logPath errPath t enable b) S) ∧
    (lowAccepts (SetLevel (buildLogger logPath errPath t enable) a) S
        = lowAccepts (buildLogger logPath errPath t enable) S ∧
      highAccepts (SetLevel (buildLogger logPath errPath t enable) a) S
        = highAccepts (buildLogger logPath errPath t enable) S) ∧
    (a ≤ S → S < t →
      consoleAccepts (buildLogger logPath errPath t enable) S = false ∧
      consoleAccepts (SetLevel (buildLogger logPath errPath t enable) a) S = true ∧
      lowAccepts (SetLevel (buildLogger logPath errPath t enable) a) S = false ∧
      highAccepts (SetLevel (buildLogger logPath errPath t enable) a) S = false) := by
  refine ⟨?_, ⟨rfl, rfl⟩, ⟨rfl, rfl⟩, ⟨rfl, rfl⟩, ?_⟩
  · rw [consoleAccepts_running]
    simp only [decide_eq_true_eq, ge_iff_le]
  · intro h1 h2
    refine ⟨?_, ?_, ?_, ?_⟩
    · rw [← running_self, consoleAccepts_running]
      simp only [decide_eq_false_iff_not, ge_iff_le, not_le]
      exact h2
    · show consoleAccepts (running logPath errPath t enable a) S = true
      rw [consoleAccepts_running]
      simp only [decide_eq_true_eq, ge_iff_le]
      exact h1
    · show lowAccepts (running logPath errPath t enable a) S = false
      rw [lowAccepts_running]
      exact (infoLevel_false_iff t S).mpr (Or.inl h2)
    · show highAccepts (running logPath errPath t enable a) S = false
      rw [highAccepts_running]
      exact (warnLevel_false_iff t S).mpr (Or.inr h2)

/-- Witness of C5: threshold Debug, cell at Debug; `Debug` reaches the `logPath` writer
and the console, and the Debug level is accepted by the low file only. -/
theorem C5_split_at_warn_witness :
    Debug (running (lit "a.log") (lit "a_err.log") DebugLevel false DebugLevel)
      = [getLogWriter (lit "a.log"), .stdout] ∧
    lowAccepts (running (lit "a.log") (lit "a_err.log") DebugLevel false DebugLevel) DebugLevel
      = true ∧
    highAccepts (running (lit "a.log") (lit "a_err.log") DebugLevel false DebugLevel) DebugLevel
      = false :=
  have h := C5_split_at_warn (lit "a.log") (lit "a_err.log") false DebugLevel DebugLevel
  ⟨h.2.2.1 (by decide), h.2.1 DebugLevel (by decide) (by decide)⟩

/-- Witness of C6: threshold Warn, cell lowered to Debug; an Info record becomes visible
on the console and still reaches neither file. -/
theorem C6_console_tracks_cell_witness :
    consoleAccepts (buildLogger (lit "a.log") (lit "a_err.log") WarnLevel true) InfoLevel = false ∧
    consoleAccepts (SetLevel (buildLogger (lit "a.log") (lit "a_err.log") WarnLevel true)
      DebugLevel) InfoLevel = true ∧
    lowAccepts (SetLevel (buildLogger (lit "a.log") (lit "a_err.log") WarnLevel true)
      DebugLevel) InfoLevel = false ∧
    highAccepts (SetLevel (buildLogger (lit "a.log") (lit "a_err.log") WarnLevel true)
      DebugLevel) InfoLevel = false :=
  (C6_console_tracks_cell (lit "a.log") (lit "a_err.log") true WarnLevel WarnLevel DebugLevel
    InfoLevel).2.2.2.2 (by decide) (by decide)

/-- C7: right after `InitLog` with a level text `L`, for every severity `S` the console
accepts `S` exactly when `S ≥ parseLevel L`, which holds exactly when one of the two
file predicates accepts `S`; with "warn" an Info record reaches no writer and a Warn
record reaches the `errPath` writer and the console; with "debug" a Debug record reaches
the `logPath` writer and the console. -/
theorem C7_after_init (logPath errPath : GoString) (enable : Bool) (L : GoString) (S : Level) :
    (consoleAccepts (InitLog logPath errPath L enable) S = true ↔ parseLevel L ≤ S) ∧
    (parseLevel L ≤ S ↔ (lowAccepts (InitLog logPath errPath L enable) S = true ∨
        highAccepts (InitLog logPath errPath L enable) S = true)) ∧
    Info (InitLog logPath errPath (lit "warn") false) = [] ∧
    Warn (InitLog logPath errPath (lit "warn") false) = [getLogWriter errPath, .stdout] ∧
    Debug (InitLog logPath errPath (lit "debug") false)
      = [getLogWriter logPath, .stdout] := by
  refine ⟨?_, ?_, ?_, ?_, ?_⟩
  · unfold InitLog
    rw [← running_self, consoleAccepts_running]
    simp only [decide_eq_true_eq, ge_iff_le]
  · unfold InitLog
    rw [← running_self, lowAccepts_running, highAccepts_running, infoLevel_iff, warnLevel_iff]
    constructor
    · intro h
      by_cases hw : S < WarnLevel
      · exact Or.inl ⟨h, hw⟩
      · exact Or.inr ⟨not_lt.mp hw, h⟩
    · rintro (h | h)
      · exact h.1
      · exact h.2
  · have hp : parseLevel (lit "warn") = WarnLevel := by decide
    unfold Info InitLog
    rw [hp, ← running_self, emit_running]
    simp only [show infoLevel WarnLevel InfoLevel = false by decide,
      show warnLevel WarnLevel InfoLevel = false by decide,
      show ¬ (WarnLevel ≤ InfoLevel) by decide]
    rfl
  · have hp : parseLevel (lit "warn") = WarnLevel := by decide
    unfold Warn InitLog
    rw [hp, ← running_self, emit_running]
    simp only [show infoLevel WarnLevel WarnLevel = false by decide,
      show warnLevel WarnLevel WarnLevel = true by decide, le_refl]
    rfl
  · have hp : parseLevel (lit "debug") = DebugLevel := by decide
    unfold Debug InitLog
    rw [hp, ← running_self, emit_running]
    simp only [show infoLevel DebugLevel DebugLevel = true by decide,
      show warnLevel DebugLevel DebugLevel = false by decide, le_refl]
    rfl

/-! ## Default file names -/

lemma IsPathSeparator_iff (c : Nat) : IsPathSeparator c = true ↔ c = 47 := by
  unfold IsPathSeparator
  simp

lemma splitIndex_le (path : GoString) (n : Nat) : splitIndex path n ≤ n := by
  induction n with
  | zero => simp [splitIndex]
  | succ k ih =>
    unfold splitIndex
    split_ifs
    · exact le_refl _
    · exact Nat.le_succ_of_le ih

/-- No byte at or after the index found by the loop is a separator. -/
lemma splitIndex_after (path : GoString) (n i : Nat) (h1 : splitIndex path n ≤ i)
    (h2 : i < n) : IsPathSeparator (path.getD i 0) = false := by
  induction n with
  | zero => exact absurd h2 (Nat.not_lt_zero i)
  | succ k ih =>
    unfold splitIndex at h1
    split_ifs at h1 with hs
    · omega
    · rcases Nat.lt_succ_iff_lt_or_eq.mp h2 with h | h
      · exact ih h1 h
      · rw [h]
        simpa using hs

/-- The index found by the loop is zero or sits right after a separator. -/
lemma splitIndex_before (path : GoString) (n : Nat) :
    splitIndex path n = 0 ∨
      ∃ j, splitIndex path n = j + 1 ∧ IsPathSeparator (path.getD j 0) = true := by
  induction n with
  | zero => exact Or.inl rfl
  | succ k ih =>
    unfold splitIndex
    split_ifs with hs
    · exact Or.inr ⟨k, rfl, hs⟩
    · exact ih

/-- What `filepath.Split` returns: the two parts concatenate to the path, the file part
holds no separator, and the directory part is empty or ends in a separator. -/
lemma Split_spec (path : GoString) :
    (Split path).1 ++ (Split path).2 = path ∧
    (∀ c ∈ (Split path).2, IsPathSeparator c = false) ∧
    ((Split path).1 = [] ∨ ∃ d, (Split path).1 = d ++ lit "/") := by
  have hle := splitIndex_le path path.length
  refine ⟨List.take_append_drop _ _, ?_, ?_⟩
  · intro c hc
    obtain ⟨i, hi, rfl⟩ := List.mem_iff_getElem.mp hc
    show IsPathSeparator ((List.drop (splitIndex path path.length) path)[i]) = false
    rw [List.getElem_drop]
    have hlen : splitIndex path path.length + i < path.length := by
      have hi2 : i < (List.drop (splitIndex path path.length) path).length := hi
      rw [List.length_drop] at hi2
      omega
    have := splitIndex_after path path.length (splitIndex path path.length + i)
      (Nat.le_add_right _ _) hlen
    rwa [List.getD_eq_getElem path 0 hlen] at this
  · rcases splitIndex_before path path.length with h | ⟨j, hj, hs⟩
    · left
      show List.take (splitIndex path path.length) path = []
      rw [h]
      rfl
    · right
      refine ⟨List.take j path, ?_⟩
      show List.take (splitIndex path path.length) path = List.take j path ++ lit "/"
      have hjlt : j < path.length := by omega
      rw [hj, List.take_succ, List.getElem?_eq_getElem hjlt]
      rw [List.getD_eq_getElem path 0 hjlt, IsPathSeparator_iff] at hs
      rw [hs]
      rfl

/-- C8: for every working directory and every program path, `setLogFile(info)` is
`cwd + "/" + base + "_.log"` and `setLogFile(err)` is `cwd + "/" + base + "_err.log"`,
where `base` is what follows the last `/` of the program path: the path is `dir ++ base`,
`base` holds no separator, and `dir` is empty or ends in `/`. -/
theorem C8_default_paths (p : Process) :
    ∃ dir base : GoString,
      p.arg0 = dir ++ base ∧
      (∀ c ∈ base, IsPathSeparator c = false) ∧
      (dir = [] ∨ ∃ d, dir = d ++ lit "/") ∧
      getAppName p = base ∧
      setLogFile p info = p.wd ++ lit "/" ++ base ++ lit "_.log" ∧
      setLogFile p err = p.wd ++ lit "/" ++ base ++ lit "_err.log" := by
  obtain ⟨h1, h2, h3⟩ := Split_spec p.arg0
  refine ⟨(Split p.arg0).1, (Split p.arg0).2, h1.symm, h2, h3, rfl, ?_, ?_⟩
  · unfold setLogFile
    rw [if_neg (by decide)]
    rfl
  · unfold setLogFile
    rw [if_pos rfl]
    rfl

/-! ## Default initialisation -/

/-- C9: `init` calls `InitLog` with the two default paths, with the level text "info"
when `LOG_LVL` is unset or empty and with the value of the variable otherwise, and with
the HTTP endpoint disabled; so the threshold of the resulting logger is Info whenever the
variable is unset, empty, or none of the six recognised names. -/
theorem C9_default_init (p : Process) :
    ((p.environ (lit "LOG_LVL") = none ∨ p.environ (lit "LOG_LVL") = some []) →
      init p = InitLog (setLogFile p info) (setLogFile p err) (lit "info") false) ∧
    (∀ v, p.environ (lit "LOG_LVL") = some v → v ≠ [] →
      init p = InitLog (setLogFile p info) (setLogFile p err) v false) ∧
    (init p).serveHTTP = false ∧
    ((p.environ (lit "LOG_LVL") = none ∨ p.environ (lit "LOG_LVL") = some [] ∨
        ∃ v, p.environ (lit "LOG_LVL") = some v ∧ v ≠ lit "debug" ∧ v ≠ lit "info" ∧
          v ≠ lit "warn" ∧ v ≠ lit "error" ∧ v ≠ lit "panic" ∧ v ≠ lit "fatal") →
      init p = buildLogger (setLogFile p info) (setLogFile p err) InfoLevel false ∧
      (init p).atomicLevel = InfoLevel) := by
  have hunset : (p.environ (lit "LOG_LVL") = none ∨ p.environ (lit "LOG_LVL") = some []) →
      init p = InitLog (setLogFile p info) (setLogFile p err) (lit "info") false := by
    intro h
    have hg : Getenv p (lit "LOG_LVL") = [] := by
      unfold Getenv
      rcases h with h | h <;> rw [h] <;> rfl
    unfold init
    simp only [hg, List.length_nil, le_refl, if_true]
  have hset : ∀ v, p.environ (lit "LOG_LVL") = some v → v ≠ [] →
      init p = InitLog (setLogFile p info) (setLogFile p err) v false := by
    intro v hv hne
    have hg : Getenv p (lit "LOG_LVL") = v := by
      unfold Getenv
      rw [hv]
      rfl
    have hlen : ¬ v.length ≤ 0 := by
      intro hle
      exact hne (List.length_eq_zero.mp (Nat.le_zero.mp hle))
    unfold init
    simp only [hg, if_neg hlen]
  have hinfo : parseLevel (lit "info") = InfoLevel := by decide
  refine ⟨hunset, hset, rfl, ?_⟩
  have key : (p.environ (lit "LOG_LVL") = none ∨ p.environ (lit "LOG_LVL") = some [] ∨
        ∃ v, p.environ (lit "LOG_LVL") = some v ∧ v ≠ lit "debug" ∧ v ≠ lit "info" ∧
          v ≠ lit "warn" ∧ v ≠ lit "error" ∧ v ≠ lit "panic" ∧ v ≠ lit "fatal") →
      init p = buildLogger (setLogFile p info) (setLogFile p err) InfoLevel false := by
    rintro (h | h | ⟨v, hv, h1, h2, h3, h4, h5, h6⟩)
    · rw [hunset (Or.inl h)]
      unfold InitLog
      rw [hinfo]
    · rw [hunset (Or.inr h)]
      unfold InitLog
      rw [hinfo]
    · by_cases hne : v = []
      · rw [hunset (Or.inr (hne ▸ hv))]
        unfold InitLog
        rw [hinfo]
      · rw [hset v hv hne]
        unfold InitLog
        have : parseLevel v = InfoLevel := by
          simp only [parseLevel, if_neg h1, if_neg h2, if_neg h3, if_neg h4, if_neg h5,
            if_neg h6]
        rw [this]
  intro h
  have hk := key h
  exact ⟨hk, by rw [hk]; rfl⟩

/-- Witness of C9: with `LOG_LVL=verbose` the logger is the one built at Info. -/
theorem C9_default_init_witness :
    init ⟨lit "/srv", lit "/usr/bin/app",
        fun k => if k = lit "LOG_LVL" then some (lit "verbose") else none⟩
      = buildLogger (lit "/srv/app_.log") (lit "/srv/app_err.log") InfoLevel false :=
  ((C9_default_init ⟨lit "/srv", lit "/usr/bin/app",
      fun k => if k = lit "LOG_LVL" then some (lit "verbose") else none⟩).2.2.2
    (Or.inr (Or.inr ⟨lit "verbose", by decide, by decide, by decide, by decide, by decide,
      by decide, by decide⟩))).1.trans
    (by
      have h1 : setLogFile ⟨lit "/srv", lit "/usr/bin/app",
          fun k => if k = lit "LOG_LVL" then some (lit "verbose") else none⟩ info
          = lit "/srv/app_.log" := by decide
      have h2 : setLogFile ⟨lit "/srv", lit "/usr/bin/app",
          fun k => if k = lit "LOG_LVL" then some (lit "verbose") else none⟩ err
          = lit "/srv/app_err.log" := by decide
      rw [h1, h2])

/-! ## The duration encoder -/

lemma tdiv_million (d : Int) :
    Int.tdiv d 1000000 = if 0 ≤ d then d / 1000000 else -((-d) / 1000000) := by
  split_ifs with h
  · exact Int.tdiv_eq_ediv h (by decide)
  · have h1 : d = -(-d) := (neg_neg d).symm
    conv_lhs => rw [h1]
    rw [Int.neg_tdiv, Int.tdiv_eq_ediv (by omega) (by decide)]

lemma wrapInt64_of_range (x : Int) (h1 : -9223372036854775808 ≤ x)
    (h2 : x < 9223372036854775808) : wrapInt64 x = x := by
  unfold wrapInt64
  norm_num
  omega

/-- C10: for every duration `d` in the `int64` range, the duration encoder appends one
`int64` value `q`, the quotient of `d` by 1000000 truncated toward zero: `d = q * 1000000
+ r` with `|r| < 1000000` and `r` zero or of the sign of `d`; so a duration shorter than
one millisecond, positive or negative, is rendered as 0. -/
theorem C10_duration_millis (d : Int) (enc : List Primitive)
    (hlo : -9223372036854775808 ≤ d) (hhi : d < 9223372036854775808) :
    ∃ q r : Int,
      EncodeDuration d enc = enc ++ [Primitive.int64 q] ∧
      d = q * 1000000 + r ∧ |r| < 1000000 ∧
      (r = 0 ∨ (0 < r ∧ 0 < d) ∨ (r < 0 ∧ d < 0)) ∧
      (|d| < 1000000 → q = 0) := by
  have hq := tdiv_million d
  have hrange : -9223372036854775808 ≤ Int.tdiv d 1000000 ∧
      Int.tdiv d 1000000 < 9223372036854775808 := by
    rw [hq]
    split_ifs with h <;> constructor <;> omega
  refine ⟨Int.tdiv d 1000000, d - Int.tdiv d 1000000 * 1000000, ?_, by ring, ?_, ?_, ?_⟩
  · unfold EncodeDuration AppendInt64 divInt64
    rw [wrapInt64_of_range _ hrange.1 hrange.2]
  · rw [abs_lt, hq]
    split_ifs with h <;> constructor <;> omega
  · rw [hq]
    split_ifs with h <;> omega
  · intro hd
    rw [abs_lt] at hd
    rw [hq]
    split_ifs with h <;> omega

/-- Witness of C10: a negative duration of 1.999999 ms is rendered as -1, not -2. -/
theorem C10_duration_millis_witness :
    EncodeDuration (-1999999) [] = [Primitive.int64 (-1)] ∧
    ∃ q r : Int,
      EncodeDuration (-1999999) [] = [] ++ [Primitive.int64 q] ∧
      (-1999999 : Int) = q * 1000000 + r ∧ |r| < 1000000 ∧
      (r = 0 ∨ (0 < r ∧ 0 < (-1999999 : Int)) ∨ (r < 0 ∧ (-1999999 : Int) < 0)) ∧
      (|(-1999999 : Int)| < 1000000 → q = 0) :=
  ⟨by decide, C10_duration_millis (-1999999) [] (by decide) (by decide)⟩

end Logger
